import Mathlib

/-!
Verification of the SkillWise recommendation engine and persistence layer.

The definitions below are a shallow embedding of the TypeScript sources:

* `server/ai.ts` — the three generation operations and their deterministic
  fallbacks (`generateCareerRecommendations`, `getDefaultCareerRecommendations`,
  `getDefaultRoadmap`, `extractSkillsFromText`);
* the Express routes (`POST /api/career-paths/generate`,
  `POST /api/career-paths/:id/select`, `PATCH /api/roadmap-steps/:id`,
  `GET /api/dashboard/stats`);
* the storage layer (`DatabaseStorage` in `storage.ts` and `MongoStorage` in
  `storage-mongo.ts`; the two implementations agree on the semantics of every
  operation modelled here, with Postgres cascade deletion of roadmap steps
  matching Mongo's explicit step deletion).

The external generative model is represented by the outcome of the upstream
call: either a failure (transport error, timeout, null/empty content, or
content that `JSON.parse` rejects) or a successfully parsed JSON value.
JavaScript-specific semantics used by the parsing code (truthiness, `||`,
`Object.values`, `String.prototype.includes`, `Array.prototype.slice`) are
embedded explicitly.
-/

namespace Skillwise

/-- JSON values as produced by `JSON.parse`. Numbers are modelled as integers,
which suffices for every value the verified code inspects. Objects keep their
fields in insertion order; keys are assumed distinct (as after `JSON.parse`,
which keeps only the last occurrence of a duplicated key). -/
inductive Json where
  | null : Json
  | bool (b : Bool) : Json
  | num (n : Int) : Json
  | str (s : String) : Json
  | arr (elems : List Json) : Json
  | obj (fields : List (String × Json)) : Json

/-- JavaScript truthiness of a JSON value: `null`, `false`, `0` and `""` are
falsy; every array and every object (including empty ones) is truthy. -/
def jsTruthy : Json → Bool
  | .null => false
  | .bool b => b
  | .num n => n != 0
  | .str s => s != ""
  | .arr _ => true
  | .obj _ => true

/-- JavaScript property access `v[k]`: yields the field of an object, and
`undefined` (here `none`) on any non-object. Access on `null` throws and is
handled separately at each use site. -/
def getField : Json → String → Option Json
  | .obj fields, k => (fields.find? (fun f => f.1 = k)).map (·.2)
  | _, _ => none

/-- JavaScript `a || b` where `a` may be `undefined` (`none`): returns `a`
when it is defined and truthy, otherwise `b`. -/
def jsOr (a : Option Json) (b : Json) : Json :=
  match a with
  | some v => if jsTruthy v then v else b
  | none => b

/-- JavaScript `Object.values`: field values of an object, elements of an
array, one-character strings for a string, and `[]` for other primitives. -/
def jsObjectValues : Json → List Json
  | .obj fields => fields.map (·.2)
  | .arr elems => elems
  | .str s => s.data.map (fun c => .str (String.singleton c))
  | _ => []

/-- JavaScript `Array.isArray`. -/
def isJsonArray : Json → Bool
  | .arr _ => true
  | _ => false

/-- Elements of a JSON array (and `[]` on non-arrays, never reached on
non-arrays by the code below). -/
def asArray : Json → List Json
  | .arr elems => elems
  | _ => []

/-- Whether the character list `needle` is an initial segment of `hay`. -/
def startsWithChars : List Char → List Char → Bool
  | [], _ => true
  | _ :: _, [] => false
  | n :: ns, h :: hs => n == h && startsWithChars ns hs

/-- Whether `needle` occurs contiguously inside `hay`. -/
def containsChars (needle : List Char) : List Char → Bool
  | [] => startsWithChars needle []
  | h :: hs => startsWithChars needle (h :: hs) || containsChars needle hs

/-- JavaScript `s.includes(sub)`: contiguous substring test. -/
def jsIncludes (s sub : String) : Bool :=
  containsChars sub.data s.data

/-- JavaScript `s.toLowerCase()`: character-wise lower-casing (the skill
names and keywords involved are ASCII, where this agrees with the JS
Unicode mapping). -/
def toLowerCase (s : String) : String :=
  ⟨s.data.map Char.toLower⟩

/-- A row of the `skills` table (`shared/schema.ts`): id, owner, name,
category, proficiency. `createdAt` is the insertion timestamp used for the
descending order of `getSkills`. -/
structure Skill where
  id : Nat
  userId : String
  name : String
  category : String
  proficiency : String
  createdAt : Nat
  deriving DecidableEq, Repr

/-- The `CareerRecommendation` interface of `server/ai.ts`. -/
structure CareerRecommendation where
  title : String
  description : String
  matchPercentage : Int
  matchReasons : List String
  requiredSkills : List String
  salaryRange : String
  demandLevel : String
  deriving DecidableEq, Repr

/-- Web-technology keywords of `getDefaultCareerRecommendations`. -/
def webTechs : List String :=
  ["javascript", "typescript", "react", "html", "css", "node"]

/-- Data-technology keywords of `getDefaultCareerRecommendations`. -/
def dataTechs : List String :=
  ["python", "sql", "data", "analytics", "machine learning", "statistics"]

/-- Predicate of ai.ts lines 201-205: some skill whose lowercased name
contains a web-technology keyword. -/
def hasWebSkills (skills : List Skill) : Bool :=
  skills.any (fun s => webTechs.any (fun tech => jsIncludes (toLowerCase s.name) tech))

/-- Predicate of ai.ts lines 207-211: some skill whose lowercased name
contains a data-technology keyword. -/
def hasDataSkills (skills : List Skill) : Bool :=
  skills.any (fun s => dataTechs.any (fun tech => jsIncludes (toLowerCase s.name) tech))

/-- The Full-Stack Developer fallback entry (ai.ts lines 216-228). -/
def fullStackRec : CareerRecommendation :=
  { title := "Full-Stack Developer"
    description := "Build complete web applications from frontend to backend. Work with modern frameworks and databases to create scalable solutions."
    matchPercentage := 85
    matchReasons :=
      ["Your JavaScript/TypeScript skills are highly valued",
       "Frontend experience translates directly to this role",
       "Growing demand for full-stack developers in the industry"]
    requiredSkills := ["JavaScript", "TypeScript", "React", "Node.js", "SQL", "REST APIs"]
    salaryRange := "$80,000 - $150,000"
    demandLevel := "High" }

/-- The Data Analyst fallback entry (ai.ts lines 232-244). -/
def dataAnalystRec : CareerRecommendation :=
  { title := "Data Analyst"
    description := "Transform raw data into actionable insights. Use statistical analysis and visualization to drive business decisions."
    matchPercentage := 80
    matchReasons :=
      ["Your analytical skills are perfect for data analysis",
       "SQL and Python knowledge is essential for this role",
       "Data-driven decision making is increasingly important"]
    requiredSkills := ["Python", "SQL", "Excel", "Data Visualization", "Statistics"]
    salaryRange := "$60,000 - $100,000"
    demandLevel := "High" }

/-- The generic Software Developer fallback entry (ai.ts lines 248-260). -/
def softwareDevRec : CareerRecommendation :=
  { title := "Software Developer"
    description := "Design, develop, and maintain software applications. Work with various technologies to solve complex problems."
    matchPercentage := 70
    matchReasons :=
      ["Software development is a versatile career path",
       "Your existing skills provide a foundation to build on",
       "Continuous learning is valued in this field"]
    requiredSkills := ["Programming", "Problem Solving", "Version Control", "Testing", "Documentation"]
    salaryRange := "$70,000 - $130,000"
    demandLevel := "High" }

/-- `getDefaultCareerRecommendations` (ai.ts lines 200-264): push Full-Stack
Developer when a web keyword matches, Data Analyst when a data keyword
matches, and a single Software Developer entry when the list is still empty. -/
def getDefaultCareerRecommendations (skills : List Skill) : List CareerRecommendation :=
  let recs :=
    (if hasWebSkills skills then [fullStackRec] else []) ++
    (if hasDataSkills skills then [dataAnalystRec] else [])
  if recs.isEmpty then [softwareDevRec] else recs

/-- Outcome of the upstream chat-completion call as seen by the code after
`JSON.parse`: `failure` covers a transport error or timeout, a null or empty
`content`, and content rejected by `JSON.parse` (all of which reach the
`catch` block or the `!content` guard); `parsed` carries a successfully
parsed JSON value. -/
inductive UpstreamResponse where
  | failure : UpstreamResponse
  | parsed (value : Json) : UpstreamResponse

/-- Lines 84-90 of ai.ts, run on the parsed response:
`parsed.careers || parsed.recommendations || parsed`, then the bare-array
check, then `Object.values(...).filter(Array.isArray)[0] || []`. Returns
`none` when the code throws (property access on `null`), which the `catch`
block then turns into the fallback. -/
def normalizeRecommendations (parsed : Json) : Option (List Json) :=
  match parsed with
  | .null => none
  | _ =>
    let recommendations :=
      jsOr (getField parsed "careers") (jsOr (getField parsed "recommendations") parsed)
    if isJsonArray recommendations then
      some (asArray recommendations)
    else
      match ((jsObjectValues recommendations).filter isJsonArray).head? with
      | some a => some (asArray a)
      | none => some []

/-- Result of `generateCareerRecommendations`: either the raw array parsed
out of the upstream response (returned unvalidated at lines 87 and 90), or
the deterministic fallback list of line 93. -/
inductive RecResult where
  | fromModel (items : List Json) : RecResult
  | fallback (recs : List CareerRecommendation) : RecResult

/-- `generateCareerRecommendations` (ai.ts lines 37-95) as a function of the
upstream outcome and the skill list. The `User` argument of the source only
shapes the prompt and cannot influence the returned value, so it is omitted.
Any exception inside the `try` block yields the fallback. -/
def generateCareerRecommendations (upstream : UpstreamResponse) (skills : List Skill) : RecResult :=
  match upstream with
  | .failure => .fallback (getDefaultCareerRecommendations skills)
  | .parsed p =>
    match normalizeRecommendations p with
    | none => .fallback (getDefaultCareerRecommendations skills)
    | some items => .fromModel items

/-- `extractSkillsFromText` (ai.ts lines 148-198) as a function of the
upstream outcome. The `text` argument only shapes the prompt (truncated to
4000 characters) and cannot influence the returned value, so it is omitted.
The returned value is `parsed.skills || []`, with every failure path
(transport, empty content, parse error, property access on `null`) giving
the empty array. -/
def extractSkillsFromText (upstream : UpstreamResponse) : Json :=
  match upstream with
  | .failure => .arr []
  | .parsed p =>
    match p with
    | .null => .arr []
    | _ => jsOr (getField p "skills") (.arr [])

/-- Roadmap phases, the union type of `server/ai.ts`. -/
inductive Phase where
  | Beginner : Phase
  | Intermediate : Phase
  | Advanced : Phase
  deriving DecidableEq, Repr

/-- One step of the `RoadmapData` interface of `server/ai.ts`. -/
structure RoadmapStepData where
  phase : Phase
  title : String
  description : String
  skills : List String
  duration : String
  deriving DecidableEq, Repr

/-- The `RoadmapData` interface of `server/ai.ts`. -/
structure RoadmapData where
  title : String
  description : String
  steps : List RoadmapStepData
  deriving DecidableEq, Repr

/-- A row of the `career_paths` table (`shared/schema.ts`). -/
structure CareerPath where
  id : Nat
  userId : String
  title : String
  description : String
  matchPercentage : Int
  matchReasons : List String
  requiredSkills : List String
  salaryRange : Option String
  demandLevel : Option String
  isSelected : Bool
  createdAt : Nat
  deriving DecidableEq, Repr

/-- JavaScript `l.slice(a, b)` on a list, for `a ≤ b` in range or not:
drop the first `a` elements and keep at most `b - a` of the rest, so an
out-of-range slice silently yields a short or empty list. -/
def jsSlice (l : List String) (a b : Nat) : List String :=
  (l.drop a).take (b - a)

/-- `getDefaultRoadmap` (ai.ts lines 266-336): the fixed nine-step fallback
roadmap, three steps per phase, with the subject-specific steps taking
`requiredSkills.slice(0, 2)`, `slice(2, 4)` and `slice(4, 6)`. -/
def getDefaultRoadmap (careerPath : CareerPath) : RoadmapData :=
  { title := "Roadmap to " ++ careerPath.title
    description := "A comprehensive learning path to become a " ++ careerPath.title ++ ". Follow these steps to build your skills progressively."
    steps :=
      [ { phase := .Beginner
          title := "Foundation Skills"
          description := "Build a strong foundation in the core concepts required for this career path."
          skills := jsSlice careerPath.requiredSkills 0 2
          duration := "2-3 weeks" },
        { phase := .Beginner
          title := "Essential Tools"
          description := "Learn the essential tools and technologies used in the industry."
          skills := ["Version Control", "Development Environment"]
          duration := "1-2 weeks" },
        { phase := .Beginner
          title := "Basic Projects"
          description := "Apply your knowledge by building small practice projects."
          skills := ["Problem Solving", "Project Structure"]
          duration := "2-3 weeks" },
        { phase := .Intermediate
          title := "Advanced Concepts"
          description := "Dive deeper into advanced topics and best practices."
          skills := jsSlice careerPath.requiredSkills 2 4
          duration := "3-4 weeks" },
        { phase := .Intermediate
          title := "Real-World Projects"
          description := "Build portfolio-worthy projects that demonstrate your skills."
          skills := ["Project Management", "Documentation"]
          duration := "4-6 weeks" },
        { phase := .Intermediate
          title := "Collaboration Skills"
          description := "Learn to work effectively in teams and contribute to larger projects."
          skills := ["Team Collaboration", "Code Review"]
          duration := "2-3 weeks" },
        { phase := .Advanced
          title := "Specialization"
          description := "Focus on a specific area within your career path to become an expert."
          skills := jsSlice careerPath.requiredSkills 4 6
          duration := "4-6 weeks" },
        { phase := .Advanced
          title := "Industry Best Practices"
          description := "Learn industry standards and best practices for professional work."
          skills := ["Architecture", "Performance Optimization"]
          duration := "3-4 weeks" },
        { phase := .Advanced
          title := "Career Preparation"
          description := "Prepare for job interviews and build your professional network."
          skills := ["Interview Skills", "Networking"]
          duration := "2-3 weeks" } ] }

/-- A row of the `users` table (`shared/schema.ts`). -/
structure UserRow where
  id : String
  email : String
  password : String
  name : String
  education : Option String
  currentRole : Option String
  experienceLevel : Option String
  interests : Option (List String)
  careerGoals : Option (List String)
  createdAt : Nat
  deriving DecidableEq, Repr

/-- A row of the `roadmaps` table (`shared/schema.ts`). -/
structure RoadmapRow where
  id : Nat
  userId : String
  careerPathId : Option Nat
  title : String
  description : Option String
  createdAt : Nat
  deriving DecidableEq, Repr

/-- A row of the `roadmap_steps` table (`shared/schema.ts`). -/
structure RoadmapStepRow where
  id : Nat
  roadmapId : Nat
  phase : Phase
  title : String
  description : String
  skills : List String
  duration : Option String
  orderIndex : Nat
  isCompleted : Bool
  createdAt : Nat
  deriving DecidableEq, Repr

/-- The persistent store, restricted to the tables the verified operations
touch. Courses, projects, saved items and resumes are untouched by these
operations and are omitted. -/
structure Storage where
  users : List UserRow
  skills : List Skill
  careerPaths : List CareerPath
  roadmaps : List RoadmapRow
  roadmapSteps : List RoadmapStepRow
  deriving Repr

/-- Insert an element into a list, before the first element it compares
`le` to; keeps insertion order among equal keys (stable). -/
def insertByLe {α : Type} (le : α → α → Bool) (a : α) : List α → List α
  | [] => [a]
  | b :: t => if le a b then a :: b :: t else b :: insertByLe le a t

/-- Stable insertion sort by a boolean comparison, modelling the `ORDER BY`
of the storage layer. -/
def sortByLe {α : Type} (le : α → α → Bool) : List α → List α
  | [] => []
  | a :: t => insertByLe le a (sortByLe le t)

/-- Sort a list in ascending order of a natural-number key. -/
def sortByKeyAsc {α : Type} (key : α → Nat) (l : List α) : List α :=
  sortByLe (fun a b => key a ≤ key b) l

/-- Sort a list in descending order of a natural-number key. -/
def sortByKeyDesc {α : Type} (key : α → Nat) (l : List α) : List α :=
  sortByLe (fun a b => key b ≤ key a) l

/-- `getUser`: look up a user row by id. -/
def getUser (s : Storage) (id : String) : Option UserRow :=
  s.users.find? (fun u => u.id = id)

/-- `getSkills`: the user's skills, ordered by `createdAt` descending. -/
def getSkills (s : Storage) (userId : String) : List Skill :=
  sortByKeyDesc (·.createdAt) (s.skills.filter (fun sk => sk.userId = userId))

/-- `getCareerPaths`: the user's career paths, ordered by match percentage
descending. The embedding stores `matchPercentage` as `Int`; the sort key
maps it through `Int.toNat`, faithful for the non-negative percentages the
system stores. -/
def getCareerPaths (s : Storage) (userId : String) : List CareerPath :=
  sortByKeyDesc (·.matchPercentage.toNat) (s.careerPaths.filter (fun p => p.userId = userId))

/-- `getCareerPath`: look up a career path by primary key. -/
def getCareerPath (s : Storage) (id : Nat) : Option CareerPath :=
  s.careerPaths.find? (fun p => p.id = id)

/-- First write of `selectCareerPath` (storage.ts line 990 /
storage-mongo.ts line 112): clear `isSelected` on every career path owned by
the user. -/
def clearSelectedForUser (l : List CareerPath) (userId : String) : List CareerPath :=
  l.map (fun p => if p.userId = userId then { p with isSelected := false } else p)

/-- Second write of `selectCareerPath` (storage.ts line 991 /
storage-mongo.ts line 113): set `isSelected` on the row with the given
primary key. -/
def setSelectedById (l : List CareerPath) (careerPathId : Nat) : List CareerPath :=
  l.map (fun p => if p.id = careerPathId then { p with isSelected := true } else p)

/-- `selectCareerPath(userId, careerPathId)`: the clear-then-set sequence,
identical in `DatabaseStorage` and `MongoStorage`. -/
def selectCareerPath (s : Storage) (userId : String) (careerPathId : Nat) : Storage :=
  { s with careerPaths := setSelectedById (clearSelectedForUser s.careerPaths userId) careerPathId }

/-- `deleteAllCareerPathsForUser`: remove every career path owned by the
user. -/
def deleteAllCareerPathsForUser (s : Storage) (userId : String) : Storage :=
  { s with careerPaths := s.careerPaths.filter (fun p => ¬ p.userId = userId) }

/-- `createManyCareerPaths`: bulk insert. -/
def createManyCareerPaths (s : Storage) (rows : List CareerPath) : Storage :=
  { s with careerPaths := s.careerPaths ++ rows }

/-- `deleteRoadmapsForUser`: delete the steps of every roadmap owned by the
user, then the roadmaps themselves (explicit two-phase delete in
`MongoStorage`; cascade deletion via the `roadmap_steps.roadmapId` foreign
key in `DatabaseStorage`). -/
def deleteRoadmapsForUser (s : Storage) (userId : String) : Storage :=
  let userRoadmapIds := (s.roadmaps.filter (fun r => r.userId = userId)).map (·.id)
  { s with
    roadmapSteps := s.roadmapSteps.filter (fun st => ¬ st.roadmapId ∈ userRoadmapIds),
    roadmaps := s.roadmaps.filter (fun r => ¬ r.userId = userId) }

/-- `createRoadmap`: insert one roadmap row. -/
def createRoadmap (s : Storage) (r : RoadmapRow) : Storage :=
  { s with roadmaps := s.roadmaps ++ [r] }

/-- `createManyRoadmapSteps`: bulk insert of step rows. -/
def createManyRoadmapSteps (s : Storage) (rows : List RoadmapStepRow) : Storage :=
  { s with roadmapSteps := s.roadmapSteps ++ rows }

/-- `getRoadmapSteps`: the steps of one roadmap, ordered by `orderIndex`. -/
def getRoadmapSteps (s : Storage) (roadmapId : Nat) : List RoadmapStepRow :=
  sortByKeyAsc (·.orderIndex) (s.roadmapSteps.filter (fun st => st.roadmapId = roadmapId))

/-- The roadmap row `getRoadmap` selects: the user's latest roadmap
(`ORDER BY createdAt DESC LIMIT 1`). -/
def latestRoadmap (s : Storage) (userId : String) : Option RoadmapRow :=
  (sortByKeyDesc (·.createdAt) (s.roadmaps.filter (fun r => r.userId = userId))).head?

/-- `getRoadmap`: the user's latest roadmap together with its ordered steps
and the career path it was generated from, or `none` when the user has no
roadmap. -/
def getRoadmap (s : Storage) (userId : String) :
    Option (RoadmapRow × List RoadmapStepRow × Option CareerPath) :=
  (latestRoadmap s userId).map
    (fun r => (r, getRoadmapSteps s r.id, r.careerPathId.bind (getCareerPath s)))

/-- The payload of `GET /api/dashboard/stats` (routes.ts lines 794-822). The
response also echoes the user's saved courses and saved projects, which live
in tables outside this embedding and do not influence the step counters. -/
structure DashboardStats where
  skills : List Skill
  careerPaths : List CareerPath
  roadmapSteps : List RoadmapStepRow
  completedSteps : Nat
  totalSteps : Nat
  deriving Repr

/-- `GET /api/dashboard/stats`: fetch the current roadmap, default its steps
to `[]` (`roadmap?.steps || []`), and count completed and total steps. -/
def computeDashboardStats (s : Storage) (userId : String) : DashboardStats :=
  let roadmapSteps :=
    match getRoadmap s userId with
    | none => []
    | some (_, steps, _) => steps
  { skills := getSkills s userId
    careerPaths := getCareerPaths s userId
    roadmapSteps := roadmapSteps
    completedSteps := (roadmapSteps.filter (·.isCompleted)).length
    totalSteps := roadmapSteps.length }

/-- `Partial<InsertRoadmapStep>`, the update payload accepted by
`updateRoadmapStep`: every column of the insert schema (everything but `id`
and `createdAt`) may independently be present or absent. The route passes
the raw request body here without restricting it to `isCompleted`. -/
structure RoadmapStepPatch where
  roadmapId : Option Nat := none
  phase : Option Phase := none
  title : Option String := none
  description : Option String := none
  skills : Option (List String) := none
  duration : Option (Option String) := none
  orderIndex : Option Nat := none
  isCompleted : Option Bool := none
  deriving DecidableEq, Repr

/-- Apply an update payload to a step row: every present field overwrites
the stored value (`UPDATE ... SET` in `DatabaseStorage`,
`findByIdAndUpdate` in `MongoStorage`). -/
def applyStepPatch (st : RoadmapStepRow) (d : RoadmapStepPatch) : RoadmapStepRow :=
  { st with
    roadmapId := d.roadmapId.getD st.roadmapId
    phase := d.phase.getD st.phase
    title := d.title.getD st.title
    description := d.description.getD st.description
    skills := d.skills.getD st.skills
    duration := d.duration.getD st.duration
    orderIndex := d.orderIndex.getD st.orderIndex
    isCompleted := d.isCompleted.getD st.isCompleted }

/-- `updateRoadmapStep(id, data)` as used by `PATCH /api/roadmap-steps/:id`
(routes.ts lines 671-683): update the row with the given primary key and
return it, or `none` (a 404) when no row matches. No ownership check and no
restriction of `data` to the completion flag is performed. -/
def updateRoadmapStep (s : Storage) (id : Nat) (d : RoadmapStepPatch) :
    Storage × Option RoadmapStepRow :=
  match s.roadmapSteps.find? (fun st => st.id = id) with
  | none => (s, none)
  | some st =>
    ({ s with roadmapSteps :=
        s.roadmapSteps.map (fun t => if t.id = id then applyStepPatch t d else t) },
     some (applyStepPatch st d))

/-- The update payload the repository's client sends for a toggle:
`{ isCompleted }` and nothing else. -/
def togglePatch (b : Bool) : RoadmapStepPatch :=
  { isCompleted := some b }

/-- Row construction of `POST /api/career-paths/generate` (routes.ts lines
598-608): each recommendation is persisted with `isSelected: false`. The
primary key and timestamp are assigned by the database; the embedding takes
them as parameters. -/
def recToRow (userId : String) (id now : Nat) (rec : CareerRecommendation) : CareerPath :=
  { id := id
    userId := userId
    title := rec.title
    description := rec.description
    matchPercentage := rec.matchPercentage
    matchReasons := rec.matchReasons
    requiredSkills := rec.requiredSkills
    salaryRange := some rec.salaryRange
    demandLevel := some rec.demandLevel
    isSelected := false
    createdAt := now }

/-- `POST /api/career-paths/generate` (routes.ts lines 582-616): reject when
the user has no skills or does not exist; otherwise delete every prior
career path of the user, run the engine, and bulk-insert the results with
`isSelected: false`. `recs` is the list returned by
`generateCareerRecommendations`; `idBase` and `now` stand for the serial
primary keys and the insertion timestamp the database assigns (row `i`
receives id `idBase + i`). -/
def generateCareerPathsEndpoint (s : Storage) (userId : String)
    (recs : List CareerRecommendation) (idBase now : Nat) : Except String Storage :=
  if (getSkills s userId).length = 0 then
    .error "Please add skills first"
  else
    match getUser s userId with
    | none => .error "User not found"
    | some _ =>
      let s1 := deleteAllCareerPathsForUser s userId
      let rows := recs.enum.map (fun ir => recToRow userId (idBase + ir.1) now ir.2)
      .ok (createManyCareerPaths s1 rows)

/-- Step-row construction of `POST /api/career-paths/:id/select` (routes.ts
lines 641-650): `orderIndex` is the 0-based position in the generated step
array and `isCompleted` starts false. -/
def stepDataToRow (roadmapId stepIdBase now : Nat) (i : Nat) (d : RoadmapStepData) :
    RoadmapStepRow :=
  { id := stepIdBase + i
    roadmapId := roadmapId
    phase := d.phase
    title := d.title
    description := d.description
    skills := d.skills
    duration := some d.duration
    orderIndex := i
    isCompleted := false
    createdAt := now }

/-- The persistence tail of `POST /api/career-paths/:id/select` (routes.ts
lines 632-652), run after `generateRoadmap` produced `rd`: delete the
user's roadmaps (cascading to their steps), insert one new roadmap row, then
insert its steps with `orderIndex` equal to each step's position in the
generated array. `newRoadmapId`, `stepIdBase` and `now` stand for the
database-assigned serial keys and timestamp. -/
def materializeRoadmap (s : Storage) (userId : String) (careerPathId : Nat)
    (rd : RoadmapData) (newRoadmapId stepIdBase now : Nat) : Storage :=
  let s1 := deleteRoadmapsForUser s userId
  let s2 := createRoadmap s1
    { id := newRoadmapId
      userId := userId
      careerPathId := some careerPathId
      title := rd.title
      description := some rd.description
      createdAt := now }
  createManyRoadmapSteps s2
    (rd.steps.enum.map (fun ir => stepDataToRow newRoadmapId stepIdBase now ir.1 ir.2))

/-! ### Concrete records used by scenarios, witnesses and counterexamples -/

/-- The scenario skill of the spec: name React, category technical,
proficiency advanced (database id, owner and timestamp are arbitrary). -/
def reactScenarioSkill : Skill :=
  { id := 1, userId := "u1", name := "React", category := "technical"
    proficiency := "advanced", createdAt := 0 }

/-- A skill named MySQL: its lowercased name contains the keyword sql. -/
def mysqlSkill : Skill :=
  { id := 2, userId := "u1", name := "MySQL", category := "technical"
    proficiency := "advanced", createdAt := 0 }

/-- A skill named Database Design: its lowercased name contains the keyword
data. -/
def databaseDesignSkill : Skill :=
  { id := 3, userId := "u1", name := "Database Design", category := "technical"
    proficiency := "beginner", createdAt := 0 }

/-! ### Substring characterization of the keyword matching -/

/-- `startsWithChars needle hay` holds exactly when `needle` is a prefix. -/
theorem startsWithChars_iff (needle hay : List Char) :
    startsWithChars needle hay = true ↔ ∃ rest, hay = needle ++ rest := by
  induction needle generalizing hay with
  | nil => simp [startsWithChars]
  | cons n ns ih =>
    cases hay with
    | nil => simp [startsWithChars]
    | cons h hs =>
      simp only [startsWithChars, Bool.and_eq_true, beq_iff_eq, ih]
      constructor
      · rintro ⟨rfl, rest, rfl⟩
        exact ⟨rest, rfl⟩
      · rintro ⟨rest, heq⟩
        obtain ⟨rfl, rfl⟩ := by simpa using heq
        exact ⟨rfl, rest, rfl⟩

/-- `containsChars needle hay` holds exactly when `needle` occurs
contiguously in `hay`. -/
theorem containsChars_iff (needle hay : List Char) :
    containsChars needle hay = true ↔ ∃ pre post, hay = pre ++ needle ++ post := by
  induction hay with
  | nil =>
    simp only [containsChars, startsWithChars_iff]
    constructor
    · rintro ⟨rest, h⟩
      exact ⟨[], rest, h⟩
    · rintro ⟨pre, post, h⟩
      obtain ⟨-, hn, -⟩ : pre = [] ∧ needle = [] ∧ post = [] := by
        have h' := h.symm
        rw [List.append_eq_nil] at h'
        obtain ⟨hpn, hpost⟩ := h'
        rw [List.append_eq_nil] at hpn
        exact ⟨hpn.1, hpn.2, hpost⟩
      exact ⟨[], by simp [hn]⟩
  | cons h hs ih =>
    simp only [containsChars, Bool.or_eq_true, startsWithChars_iff, ih]
    constructor
    · rintro (⟨rest, heq⟩ | ⟨pre, post, heq⟩)
      · exact ⟨[], rest, by simpa using heq⟩
      · exact ⟨h :: pre, post, by simp [heq]⟩
    · rintro ⟨pre, post, heq⟩
      cases pre with
      | nil => exact Or.inl ⟨post, by simpa using heq⟩
      | cons p ps =>
        right
        obtain ⟨-, heq⟩ := by simpa using heq
        exact ⟨ps, post, by simp [heq]⟩

/-- C10: the fallback classifier decides family membership by
case-insensitive substring containment of the keyword in the skill name. -/
theorem keyword_matching_is_substring_containment (skills : List Skill) :
    (hasWebSkills skills = true ↔
      ∃ s ∈ skills, ∃ kw ∈ webTechs,
        ∃ pre post : List Char, (toLowerCase s.name).data = pre ++ kw.data ++ post)
    ∧ (hasDataSkills skills = true ↔
      ∃ s ∈ skills, ∃ kw ∈ dataTechs,
        ∃ pre post : List Char, (toLowerCase s.name).data = pre ++ kw.data ++ post)
    ∧ getDefaultCareerRecommendations [mysqlSkill] = [dataAnalystRec]
    ∧ getDefaultCareerRecommendations [databaseDesignSkill] = [dataAnalystRec]
    ∧ getDefaultCareerRecommendations [reactScenarioSkill, mysqlSkill] =
        [fullStackRec, dataAnalystRec] := by
  refine ⟨?_, ?_, by decide, by decide, by decide⟩
  · simp only [hasWebSkills, List.any_eq_true, jsIncludes, containsChars_iff]
  · simp only [hasDataSkills, List.any_eq_true, jsIncludes, containsChars_iff]

/-! ### C2: exact shape of the career-recommendation fallback -/

/-- C2: the fallback is exactly a Full-Stack Developer entry at 85 for a
web-keyword match, a Data Analyst entry at 80 for a data-keyword match, and
exactly one Software Developer entry at 70 when neither family matches; for
the React scenario with the upstream call failing, the result is the single
Full-Stack Developer entry. -/
theorem default_recommendations_exact (skills : List Skill) :
    getDefaultCareerRecommendations skills =
      (if hasWebSkills skills then
        (if hasDataSkills skills then [fullStackRec, dataAnalystRec] else [fullStackRec])
       else
        (if hasDataSkills skills then [dataAnalystRec] else [softwareDevRec]))
    ∧ fullStackRec.title = "Full-Stack Developer" ∧ fullStackRec.matchPercentage = 85
    ∧ dataAnalystRec.title = "Data Analyst" ∧ dataAnalystRec.matchPercentage = 80
    ∧ softwareDevRec.title = "Software Developer" ∧ softwareDevRec.matchPercentage = 70
    ∧ generateCareerRecommendations .failure [reactScenarioSkill] =
        .fallback [fullStackRec] := by
  refine ⟨?_, rfl, rfl, rfl, rfl, rfl, rfl,
    congrArg RecResult.fallback (by decide)⟩
  unfold getDefaultCareerRecommendations
  cases hW : hasWebSkills skills <;> cases hD : hasDataSkills skills <;> simp

/-- The fallback list is never empty. -/
theorem default_recommendations_ne_nil (skills : List Skill) :
    getDefaultCareerRecommendations skills ≠ [] := by
  unfold getDefaultCareerRecommendations
  cases hW : hasWebSkills skills <;> cases hD : hasDataSkills skills <;> simp

/-! ### C1: failure policy of generateCareerRecommendations -/

/-- C1 counterexample: a successfully parsed response that is an object with
no array-valued entry (here the empty object) does NOT yield the
keyword-matching fallback — the code returns the empty list from inside the
`try` block — so the operation can return an empty list for a non-empty
skill list. -/
theorem career_recommendations_empty_object_counterexample :
    generateCareerRecommendations (.parsed (.obj [])) [reactScenarioSkill] =
      .fromModel []
    ∧ generateCareerRecommendations (.parsed (.obj [])) [reactScenarioSkill] ≠
      .fallback (getDefaultCareerRecommendations [reactScenarioSkill]) := by
  exact ⟨rfl, fun h => RecResult.noConfusion h⟩

/-- C1 (amended): the operation is total and never throws; on a transport
error, timeout, non-JSON or null/empty content (`failure`), and on a parsed
`null` (whose property access throws inside the `try` block), it returns the
deterministic keyword-matching fallback, which is never empty; a parsed bare
array is returned as is; but a parsed object with no array-valued entry
yields the empty upstream list rather than the fallback. -/
theorem career_recommendations_failure_policy (skills : List Skill) (items : List Json) :
    generateCareerRecommendations .failure skills =
      .fallback (getDefaultCareerRecommendations skills)
    ∧ generateCareerRecommendations (.parsed .null) skills =
      .fallback (getDefaultCareerRecommendations skills)
    ∧ getDefaultCareerRecommendations skills ≠ []
    ∧ generateCareerRecommendations (.parsed (.arr items)) skills = .fromModel items
    ∧ generateCareerRecommendations (.parsed (.obj [("careers", .arr items)])) skills =
        .fromModel items := by
  refine ⟨rfl, rfl, default_recommendations_ne_nil skills, rfl, ?_⟩
  simp [generateCareerRecommendations, normalizeRecommendations, getField, jsOr,
    jsTruthy, isJsonArray, asArray, List.find?]

/-! ### C7: failure policy of extractSkillsFromText -/

/-- C7: skill extraction never throws and has no synthetic fallback: on a
transport error, non-JSON or empty content, a parsed `null`, or a parsed
response without a `skills` field, it returns the empty list; a response
with an array-valued `skills` field returns exactly that array. -/
theorem extract_skills_failure_policy :
    extractSkillsFromText .failure = .arr []
    ∧ extractSkillsFromText (.parsed .null) = .arr []
    ∧ (∀ p : Json, getField p "skills" = none →
        extractSkillsFromText (.parsed p) = .arr [])
    ∧ (∀ items : List Json,
        extractSkillsFromText (.parsed (.obj [("skills", .arr items)])) = .arr items) := by
  refine ⟨rfl, rfl, ?_, ?_⟩
  · intro p hp
    cases p <;> simp_all [extractSkillsFromText, jsOr]
  · intro items
    simp [extractSkillsFromText, jsOr, getField, jsTruthy, List.find?]

/-- Witness for C7: the empty object has no `skills` field and extraction
returns the empty list. -/
theorem extract_skills_failure_policy_witness :
    extractSkillsFromText (.parsed (.obj [])) = .arr [] :=
  extract_skills_failure_policy.2.2.1 (.obj []) rfl

/-! ### C3: the nine-step fallback roadmap -/

/-- C3: for every career path, the fallback roadmap has exactly 9 steps,
3 per phase in order Beginner, Intermediate, Advanced, and the
skills-gained lists of steps 1, 4 and 7 are the slices of the required
skills at positions 0-1, 2-3 and 4-5, every other step carrying its fixed
list; out-of-range slices yield empty lists (shown for the empty
required-skills list). -/
theorem default_roadmap_shape (careerPath : CareerPath) :
    (getDefaultRoadmap careerPath).steps.length = 9
    ∧ (getDefaultRoadmap careerPath).steps.map (·.phase) =
        [.Beginner, .Beginner, .Beginner, .Intermediate, .Intermediate, .Intermediate,
         .Advanced, .Advanced, .Advanced]
    ∧ (getDefaultRoadmap careerPath).steps.map (·.skills) =
        [(careerPath.requiredSkills.drop 0).take 2,
         ["Version Control", "Development Environment"],
         ["Problem Solving", "Project Structure"],
         (careerPath.requiredSkills.drop 2).take 2,
         ["Project Management", "Documentation"],
         ["Team Collaboration", "Code Review"],
         (careerPath.requiredSkills.drop 4).take 2,
         ["Architecture", "Performance Optimization"],
         ["Interview Skills", "Networking"]]
    ∧ (careerPath.requiredSkills = [] →
        (getDefaultRoadmap careerPath).steps.map (·.skills) =
          [[], ["Version Control", "Development Environment"],
           ["Problem Solving", "Project Structure"],
           [], ["Project Management", "Documentation"],
           ["Team Collaboration", "Code Review"],
           [], ["Architecture", "Performance Optimization"],
           ["Interview Skills", "Networking"]]) := by
  refine ⟨rfl, rfl, by simp [getDefaultRoadmap, jsSlice], ?_⟩
  intro h
  simp [getDefaultRoadmap, jsSlice, h]

/-! ### Sorting lemmas -/

/-- Inserting below everything prepends. -/
theorem insertByLe_of_forall_le {α : Type} (le : α → α → Bool) (a : α) (t : List α)
    (h : ∀ b ∈ t, le a b = true) : insertByLe le a t = a :: t := by
  cases t with
  | nil => rfl
  | cons b t' => simp [insertByLe, h b (List.mem_cons_self b t')]

/-- Sorting an already-sorted list is the identity. -/
theorem sortByLe_of_pairwise {α : Type} (le : α → α → Bool) (l : List α)
    (h : List.Pairwise (fun a b => le a b = true) l) : sortByLe le l = l := by
  induction l with
  | nil => rfl
  | cons a t ih =>
    obtain ⟨ha, ht⟩ := List.pairwise_cons.mp h
    rw [sortByLe, ih ht, insertByLe_of_forall_le le a t ha]

/-- Insertion grows the length by one. -/
theorem length_insertByLe {α : Type} (le : α → α → Bool) (a : α) (t : List α) :
    (insertByLe le a t).length = t.length + 1 := by
  induction t with
  | nil => rfl
  | cons b t' ih =>
    by_cases h : le a b = true <;> simp [insertByLe, h, ih]

/-- Sorting preserves the length. -/
theorem length_sortByLe {α : Type} (le : α → α → Bool) (l : List α) :
    (sortByLe le l).length = l.length := by
  induction l with
  | nil => rfl
  | cons a t ih =>
    rw [sortByLe, length_insertByLe, ih]
    rfl

/-- The indices paired up by `enumFrom` are strictly increasing. -/
theorem pairwise_fst_lt_enumFrom {α : Type} (n : Nat) (l : List α) :
    List.Pairwise (fun a b => a.1 < b.1) (List.enumFrom n l) := by
  induction l generalizing n with
  | nil => exact List.Pairwise.nil
  | cons a t ih =>
    refine List.Pairwise.cons (fun x hx => ?_) (ih (n + 1))
    obtain ⟨x1, x2⟩ := x
    exact Nat.lt_of_lt_of_le (Nat.lt_succ_self n) (List.mem_enumFrom hx).1

/-- The indices paired up by `enum` are strictly increasing. -/
theorem pairwise_fst_lt_enum {α : Type} (l : List α) :
    List.Pairwise (fun a b => a.1 < b.1) l.enum :=
  pairwise_fst_lt_enumFrom 0 l

/-! ### C8: what the roadmap-step PATCH endpoint can change -/

/-- A stored roadmap step used to exhibit the behaviour of the PATCH
endpoint. -/
def patchedStep : RoadmapStepRow :=
  { id := 1, roadmapId := 10, phase := .Beginner, title := "Foundation Skills"
    description := "Build a strong foundation."
    skills := ["JavaScript"], duration := some "2-3 weeks"
    orderIndex := 0, isCompleted := false, createdAt := 5 }

/-- A store holding only `patchedStep`. -/
def patchStorage : Storage :=
  { users := [], skills := [], careerPaths := [], roadmaps := []
    roadmapSteps := [patchedStep] }

/-- A request body carrying a `title` field, as nothing in the endpoint
prevents. -/
def titlePatch : RoadmapStepPatch :=
  { title := some "Hacked" }

/-- C8 counterexample: the PATCH endpoint applies whatever insert-schema
fields the request body carries, so a body with a `title` field changes the
step's title — `isCompleted` is not the only externally mutable field. -/
theorem patch_endpoint_changes_title_counterexample :
    ((updateRoadmapStep patchStorage 1 titlePatch).1.roadmapSteps.map (·.title))
      = ["Hacked"]
    ∧ patchedStep.title = "Foundation Skills"
    ∧ ((updateRoadmapStep patchStorage 1 titlePatch).1.roadmapSteps.map (·.isCompleted))
      = [patchedStep.isCompleted] := by
  exact ⟨by decide, rfl, by decide⟩

/-- C8 (amended): the PATCH endpoint applies exactly the fields present in
the request body; for the toggle body the repository's client sends
(`{ isCompleted }` and nothing else), the update changes only the matched
step's `isCompleted` flag and leaves every other field of every step —
phase, title, description, skills, duration, orderIndex, roadmapId —
unchanged. -/
theorem toggle_patch_only_changes_isCompleted (s : Storage) (id : Nat) (b : Bool) :
    (updateRoadmapStep s id (togglePatch b)).1.roadmapSteps =
      s.roadmapSteps.map (fun t => if t.id = id then { t with isCompleted := b } else t) := by
  unfold updateRoadmapStep
  cases hfind : s.roadmapSteps.find? (fun st => st.id = id) with
  | none =>
    rw [List.find?_eq_none] at hfind
    have hmap : ∀ t ∈ s.roadmapSteps,
        (if t.id = id then { t with isCompleted := b } else t) = t := by
      intro t ht
      have : ¬ t.id = id := by simpa using hfind t ht
      simp [this]
    show s.roadmapSteps = _
    rw [List.map_congr_left hmap]
    simp
  | some st =>
    show (s.roadmapSteps.map
        (fun t => if t.id = id then applyStepPatch t (togglePatch b) else t)) =
      s.roadmapSteps.map (fun t => if t.id = id then { t with isCompleted := b } else t)
    refine List.map_congr_left fun t _ => ?_
    by_cases h : t.id = id <;> simp [h, applyStepPatch, togglePatch]

/-! ### C6: dashboard statistics -/

/-- C6: the dashboard aggregation is total; a user with zero roadmaps gets
`totalSteps = 0` and `completedSteps = 0`, and in general `completedSteps`
counts the current roadmap's steps with `isCompleted = true` while
`totalSteps` is their total number. -/
theorem dashboard_stats_correct (s : Storage) (u : String) :
    (s.roadmaps.filter (fun r => r.userId = u) = [] →
      (computeDashboardStats s u).totalSteps = 0
      ∧ (computeDashboardStats s u).completedSteps = 0)
    ∧ (∀ r steps cp, getRoadmap s u = some (r, steps, cp) →
        (computeDashboardStats s u).completedSteps
          = (steps.filter (·.isCompleted)).length
        ∧ (computeDashboardStats s u).totalSteps = steps.length) := by
  constructor
  · intro h
    have hlr : latestRoadmap s u = none := by
      simp [latestRoadmap, h, sortByKeyDesc, sortByLe]
    simp [computeDashboardStats, getRoadmap, hlr]
  · intro r steps cp h
    simp [computeDashboardStats, h]

/-- A user with no roadmap rows at all. -/
def emptyStorage : Storage :=
  { users := [], skills := [], careerPaths := [], roadmaps := [], roadmapSteps := [] }

/-- Witness for C6: on an empty store the aggregation returns zero counts. -/
theorem dashboard_stats_correct_witness :
    (computeDashboardStats emptyStorage "u1").totalSteps = 0
    ∧ (computeDashboardStats emptyStorage "u1").completedSteps = 0 :=
  (dashboard_stats_correct emptyStorage "u1").1 rfl

/-! ### C4: selecting a career path -/

/-- Under duplicate-free primary keys, filtering for the owner's row with
the selected key yields exactly that row. -/
theorem filter_owner_key_eq_singleton (l : List CareerPath) (u : String) (cid : Nat)
    (hnodup : (l.map (·.id)).Nodup) (c : CareerPath)
    (hc : c ∈ l) (hid : c.id = cid) (hu : c.userId = u) :
    l.filter (fun p => decide (p.userId = u) && decide (p.id = cid)) = [c] := by
  induction l with
  | nil => cases hc
  | cons a t ih =>
    rw [List.map_cons, List.nodup_cons] at hnodup
    obtain ⟨ha, ht⟩ := hnodup
    rcases List.mem_cons.mp hc with rfl | hc'
    · rw [List.filter_cons_of_pos (by simp [hu, hid])]
      have hrest : t.filter (fun p => decide (p.userId = u) && decide (p.id = cid)) = [] := by
        rw [List.filter_eq_nil_iff]
        intro p hp hpred
        have hpid : p.id = cid := by
          simpa using (Bool.and_eq_true _ _ |>.mp hpred).2
        exact ha (hid ▸ hpid ▸ List.mem_map_of_mem (·.id) hp)
      rw [hrest]
    · have hane : ¬ (decide (a.userId = u) && decide (a.id = cid)) = true := by
        simp only [Bool.and_eq_true, decide_eq_true_eq, not_and]
        intro _ haid
        exact ha (haid ▸ hid ▸ List.mem_map_of_mem (·.id) hc')
      rw [List.filter_cons, if_neg hane]
      exact ih ht hc'

/-- C4: with duplicate-free primary keys, after `selectCareerPath(u, c)` for
a path `c` owned by `u`, exactly one career path owned by `u` is selected
and it is `c`, every other path owned by `u` is unselected, and the
intermediate state after the clearing write has no selected path owned by
`u` — the sequence never creates a state with two selected paths. -/
theorem select_career_path_unique (s : Storage) (u : String) (cid : Nat)
    (hnodup : (s.careerPaths.map (·.id)).Nodup)
    (hc : ∃ c ∈ s.careerPaths, c.id = cid ∧ c.userId = u) :
    ((selectCareerPath s u cid).careerPaths.filter
        (fun p => decide (p.userId = u) && p.isSelected)).map (·.id) = [cid]
    ∧ (∀ p ∈ (selectCareerPath s u cid).careerPaths,
        p.userId = u → (p.isSelected = true ↔ p.id = cid))
    ∧ (∀ p ∈ clearSelectedForUser s.careerPaths u, p.userId = u → p.isSelected = false) := by
  obtain ⟨c, hcmem, hcid, hcu⟩ := hc
  have hg : ∀ p : CareerPath,
      (if (if p.userId = u then { p with isSelected := false } else p).id = cid then
        { (if p.userId = u then { p with isSelected := false } else p) with isSelected := true }
       else (if p.userId = u then { p with isSelected := false } else p)) =
      { p with isSelected :=
          if p.id = cid then true else if p.userId = u then false else p.isSelected } := by
    intro p
    by_cases h1 : p.userId = u <;> by_cases h2 : p.id = cid <;> simp [h1, h2]
  have hsel : (selectCareerPath s u cid).careerPaths =
      s.careerPaths.map (fun p =>
        { p with isSelected :=
            if p.id = cid then true else if p.userId = u then false else p.isSelected }) := by
    show (s.careerPaths.map _).map _ = _
    rw [List.map_map]
    exact List.map_congr_left (fun p _ => hg p)
  refine ⟨?_, ?_, ?_⟩
  · rw [hsel, List.filter_map]
    have hpred : ((fun p : CareerPath => decide (p.userId = u) && p.isSelected) ∘
        (fun p : CareerPath =>
          { p with isSelected :=
              if p.id = cid then true else if p.userId = u then false else p.isSelected })) =
        fun p => decide (p.userId = u) && decide (p.id = cid) := by
      funext p
      by_cases h1 : p.userId = u <;> by_cases h2 : p.id = cid <;> simp [h1, h2]
    rw [hpred, filter_owner_key_eq_singleton s.careerPaths u cid hnodup c hcmem hcid hcu]
    simp [hcid]
  · rw [hsel]
    intro p hp hpu
    obtain ⟨q, hq, rfl⟩ := List.mem_map.mp hp
    have hqu : q.userId = u := hpu
    by_cases h2 : q.id = cid <;> simp [h2, hqu]
  · intro p hp hpu
    obtain ⟨q, hq, rfl⟩ := List.mem_map.mp hp
    by_cases h1 : q.userId = u
    · simp [h1]
    · rw [if_neg h1] at hpu
      exact absurd hpu h1

/-- Two stored career paths owned by the same user, the first currently
selected. -/
def cpFirst : CareerPath :=
  { id := 1, userId := "u1", title := "Full-Stack Developer", description := "d1"
    matchPercentage := 85, matchReasons := [], requiredSkills := []
    salaryRange := none, demandLevel := none, isSelected := true, createdAt := 0 }

/-- The second stored career path, not yet selected. -/
def cpSecond : CareerPath :=
  { id := 2, userId := "u1", title := "Data Analyst", description := "d2"
    matchPercentage := 80, matchReasons := [], requiredSkills := []
    salaryRange := none, demandLevel := none, isSelected := false, createdAt := 0 }

/-- A store holding the two career paths. -/
def selectStorage : Storage :=
  { users := [], skills := [], careerPaths := [cpFirst, cpSecond]
    roadmaps := [], roadmapSteps := [] }

/-- Witness for C4: selecting path 2 leaves it as the unique selected path
of user u1. -/
theorem select_career_path_unique_witness :
    ((selectCareerPath selectStorage "u1" 2).careerPaths.filter
        (fun p => decide (p.userId = "u1") && p.isSelected)).map (·.id) = [2] :=
  (select_career_path_unique selectStorage "u1" 2 (by decide)
    ⟨cpSecond, by decide, by decide, by decide⟩).1

/-! ### C9: regeneration of career recommendations -/

/-- C9: a successful `POST /api/career-paths/generate` removes every career
path previously owned by the user, persists the new batch with
`isSelected = false`, and therefore leaves no selected career path for the
user — regeneration always resets selection to none. `hfresh` states that
the database assigns fresh serial keys above every existing one. -/
theorem generate_endpoint_resets_selection (s : Storage) (u : String)
    (recs : List CareerRecommendation) (idBase now : Nat)
    (hskills : (getSkills s u).length ≠ 0)
    (w : UserRow) (huser : getUser s u = some w)
    (hfresh : ∀ p ∈ s.careerPaths, p.id < idBase) :
    ∃ s', generateCareerPathsEndpoint s u recs idBase now = .ok s'
      ∧ s'.careerPaths =
          s.careerPaths.filter (fun p => ¬ p.userId = u) ++
            recs.enum.map (fun ir => recToRow u (idBase + ir.1) now ir.2)
      ∧ (∀ p ∈ s.careerPaths, p.userId = u → p ∉ s'.careerPaths)
      ∧ (∀ p ∈ s'.careerPaths, p.userId = u → p.isSelected = false) := by
  have hok : generateCareerPathsEndpoint s u recs idBase now =
      .ok (createManyCareerPaths (deleteAllCareerPathsForUser s u)
        (recs.enum.map (fun ir => recToRow u (idBase + ir.1) now ir.2))) := by
    unfold generateCareerPathsEndpoint
    rw [if_neg hskills, huser]
  refine ⟨_, hok, rfl, ?_, ?_⟩
  · intro p hp hpu hmem
    rcases List.mem_append.mp hmem with hmem1 | hmem2
    · exact absurd hpu (by simpa using (List.mem_filter.mp hmem1).2)
    · obtain ⟨ir, _, heq⟩ := List.mem_map.mp hmem2
      have : p.id = idBase + ir.1 := by
        rw [← heq]
        rfl
      exact absurd (hfresh p hp) (by omega)
  · intro p hmem hpu
    rcases List.mem_append.mp hmem with hmem1 | hmem2
    · exact absurd hpu (by simpa using (List.mem_filter.mp hmem1).2)
    · obtain ⟨ir, _, heq⟩ := List.mem_map.mp hmem2
      rw [← heq]
      rfl

/-- The owner of the stored rows in the witness scenarios. -/
def witnessUser : UserRow :=
  { id := "u1", email := "u1@example.com", password := "hash", name := "Alex"
    education := none, currentRole := none, experienceLevel := none
    interests := none, careerGoals := none, createdAt := 0 }

/-- A store with one user, one skill and one stale selected career path. -/
def generateStorage : Storage :=
  { users := [witnessUser], skills := [reactScenarioSkill]
    careerPaths := [cpFirst], roadmaps := [], roadmapSteps := [] }

/-- Witness for C9: regenerating over a stale selected path yields a state
whose only path for the user is the fresh unselected row. -/
theorem generate_endpoint_resets_selection_witness :
    ∃ s', generateCareerPathsEndpoint generateStorage "u1" [fullStackRec] 100 7 = .ok s'
      ∧ s'.careerPaths =
          generateStorage.careerPaths.filter (fun p => ¬ p.userId = "u1") ++
            [fullStackRec].enum.map (fun ir => recToRow "u1" (100 + ir.1) 7 ir.2)
      ∧ (∀ p ∈ generateStorage.careerPaths, p.userId = "u1" → p ∉ s'.careerPaths)
      ∧ (∀ p ∈ s'.careerPaths, p.userId = "u1" → p.isSelected = false) :=
  generate_endpoint_resets_selection generateStorage "u1" [fullStackRec] 100 7
    (by decide) witnessUser rfl (by decide)

/-! ### C5: roadmap regeneration -/

/-- C5: after the roadmap-materialization sequence, no step of any of the
user's prior roadmaps is retrievable, exactly one roadmap exists for the
user (the new one), and its retrieved steps carry `orderIndex` values
`0..N-1` equal to each step's position in the generated array, in exactly
the generated phase/title/skills order (no re-sorting by phase). The
freshness hypotheses state that the new serial roadmap key is unused. -/
theorem materialize_roadmap_correct (s : Storage) (u : String) (careerPathId : Nat)
    (rd : RoadmapData) (newRoadmapId stepIdBase now : Nat)
    (hfreshR : ∀ r ∈ s.roadmaps, r.id ≠ newRoadmapId)
    (hfreshSt : ∀ st ∈ s.roadmapSteps, st.roadmapId ≠ newRoadmapId) :
    (∀ r ∈ s.roadmaps, r.userId = u →
      getRoadmapSteps (materializeRoadmap s u careerPathId rd newRoadmapId stepIdBase now) r.id = [])
    ∧ (materializeRoadmap s u careerPathId rd newRoadmapId stepIdBase now).roadmaps.filter
        (fun r => r.userId = u) =
        [{ id := newRoadmapId, userId := u, careerPathId := some careerPathId,
           title := rd.title, description := some rd.description, createdAt := now }]
    ∧ (getRoadmapSteps (materializeRoadmap s u careerPathId rd newRoadmapId stepIdBase now)
        newRoadmapId).map (·.orderIndex) = List.range rd.steps.length
    ∧ (getRoadmapSteps (materializeRoadmap s u careerPathId rd newRoadmapId stepIdBase now)
        newRoadmapId).map (fun st => (st.phase, st.title, st.skills)) =
        rd.steps.map (fun d => (d.phase, d.title, d.skills)) := by
  have hsteps : (materializeRoadmap s u careerPathId rd newRoadmapId stepIdBase now).roadmapSteps =
      s.roadmapSteps.filter
        (fun st => ¬ st.roadmapId ∈ ((s.roadmaps.filter (fun r => r.userId = u)).map (·.id)))
      ++ rd.steps.enum.map (fun ir => stepDataToRow newRoadmapId stepIdBase now ir.1 ir.2) := rfl
  have hnewfilter : (rd.steps.enum.map
        (fun ir => stepDataToRow newRoadmapId stepIdBase now ir.1 ir.2)).filter
        (fun st => st.roadmapId = newRoadmapId) =
      rd.steps.enum.map (fun ir => stepDataToRow newRoadmapId stepIdBase now ir.1 ir.2) := by
    rw [List.filter_eq_self]
    intro st hst
    obtain ⟨ir, _, heq⟩ := List.mem_map.mp hst
    rw [← heq]
    simp [stepDataToRow]
  have hsortnew : sortByKeyAsc (·.orderIndex)
      (rd.steps.enum.map (fun ir => stepDataToRow newRoadmapId stepIdBase now ir.1 ir.2)) =
      rd.steps.enum.map (fun ir => stepDataToRow newRoadmapId stepIdBase now ir.1 ir.2) := by
    apply sortByLe_of_pairwise
    rw [List.pairwise_map]
    exact (pairwise_fst_lt_enum rd.steps).imp (fun h => by
      simpa [stepDataToRow] using Nat.le_of_lt h)
  refine ⟨?_, ?_, ?_, ?_⟩
  · intro r hr hru
    have hfilter : (materializeRoadmap s u careerPathId rd newRoadmapId stepIdBase now).roadmapSteps.filter
        (fun st => st.roadmapId = r.id) = [] := by
      rw [hsteps, List.filter_append, List.filter_filter]
      have h1 : ∀ st ∈ s.roadmapSteps,
          ¬ ((decide (st.roadmapId = r.id)) &&
             !(decide (st.roadmapId ∈ (s.roadmaps.filter (fun x => x.userId = u)).map (·.id)))) = true := by
        intro st _
        simp only [Bool.and_eq_true, Bool.not_eq_true', decide_eq_true_eq, decide_eq_false_iff_not, not_and]
        intro hst
        intro hnot
        exact hnot (hst ▸ List.mem_map_of_mem (·.id) (List.mem_filter.mpr ⟨hr, by simp [hru]⟩))
      have h2 : ∀ st ∈ rd.steps.enum.map
          (fun ir => stepDataToRow newRoadmapId stepIdBase now ir.1 ir.2),
          ¬ (decide (st.roadmapId = r.id)) = true := by
        intro st hst
        obtain ⟨ir, _, heq⟩ := List.mem_map.mp hst
        have : st.roadmapId = newRoadmapId := by
          rw [← heq]
          rfl
        simp only [decide_eq_true_eq, this]
        exact fun hcontra => hfreshR r hr hcontra.symm
      rw [List.filter_eq_nil_iff.mpr ?_, List.filter_eq_nil_iff.mpr h2, List.append_nil]
      intro st hst
      have := h1 st hst
      intro hcontra
      apply this
      simpa [Bool.and_comm] using hcontra
    unfold getRoadmapSteps
    rw [hfilter]
    rfl
  · show (s.roadmaps.filter (fun r : RoadmapRow => ¬ r.userId = u) ++
        [({ id := newRoadmapId, userId := u, careerPathId := some careerPathId,
            title := rd.title, description := some rd.description,
            createdAt := now } : RoadmapRow)]).filter
        (fun r : RoadmapRow => r.userId = u) = _
    rw [List.filter_append, List.filter_filter]
    have h1 : s.roadmaps.filter
        (fun a => decide (a.userId = u) && (decide (¬ a.userId = u) : Bool)) = [] := by
      rw [List.filter_eq_nil_iff]
      intro r _
      by_cases h : r.userId = u <;> simp [h]
    rw [h1]
    simp
  · have hfilter : (materializeRoadmap s u careerPathId rd newRoadmapId stepIdBase now).roadmapSteps.filter
        (fun st => st.roadmapId = newRoadmapId) =
        rd.steps.enum.map (fun ir => stepDataToRow newRoadmapId stepIdBase now ir.1 ir.2) := by
      rw [hsteps, List.filter_append, hnewfilter]
      have h0 : (s.roadmapSteps.filter
          (fun st => ¬ st.roadmapId ∈ ((s.roadmaps.filter (fun r => r.userId = u)).map (·.id)))).filter
          (fun st => st.roadmapId = newRoadmapId) = [] := by
        rw [List.filter_eq_nil_iff]
        intro st hst
        have hmem := (List.mem_filter.mp hst).1
        simpa using hfreshSt st hmem
      rw [h0, List.nil_append]
    unfold getRoadmapSteps
    rw [hfilter, hsortnew, List.map_map]
    have : ((fun st : RoadmapStepRow => st.orderIndex) ∘
        (fun ir : Nat × RoadmapStepData => stepDataToRow newRoadmapId stepIdBase now ir.1 ir.2)) =
        Prod.fst := by
      funext ir
      rfl
    rw [this, List.enum_map_fst]
  · have hfilter : (materializeRoadmap s u careerPathId rd newRoadmapId stepIdBase now).roadmapSteps.filter
        (fun st => st.roadmapId = newRoadmapId) =
        rd.steps.enum.map (fun ir => stepDataToRow newRoadmapId stepIdBase now ir.1 ir.2) := by
      rw [hsteps, List.filter_append, hnewfilter]
      have h0 : (s.roadmapSteps.filter
          (fun st => ¬ st.roadmapId ∈ ((s.roadmaps.filter (fun r => r.userId = u)).map (·.id)))).filter
          (fun st => st.roadmapId = newRoadmapId) = [] := by
        rw [List.filter_eq_nil_iff]
        intro st hst
        have hmem := (List.mem_filter.mp hst).1
        simpa using hfreshSt st hmem
      rw [h0, List.nil_append]
    unfold getRoadmapSteps
    rw [hfilter, hsortnew, List.map_map]
    have hcomp : ((fun st : RoadmapStepRow => (st.phase, st.title, st.skills)) ∘
        (fun ir : Nat × RoadmapStepData => stepDataToRow newRoadmapId stepIdBase now ir.1 ir.2)) =
        ((fun d : RoadmapStepData => (d.phase, d.title, d.skills)) ∘ Prod.snd) := by
      funext ir
      rfl
    rw [hcomp, ← List.map_map, List.enum_map_snd]

/-- A stale roadmap row owned by user u1. -/
def oldRoadmap : RoadmapRow :=
  { id := 1, userId := "u1", careerPathId := some 1, title := "Old roadmap"
    description := none, createdAt := 0 }

/-- A step of the stale roadmap. -/
def oldStep : RoadmapStepRow :=
  { id := 11, roadmapId := 1, phase := .Beginner, title := "Old step"
    description := "d", skills := [], duration := none
    orderIndex := 0, isCompleted := true, createdAt := 0 }

/-- A store holding the stale roadmap and its step. -/
def roadmapStorage : Storage :=
  { users := [witnessUser], skills := [], careerPaths := [cpFirst]
    roadmaps := [oldRoadmap], roadmapSteps := [oldStep] }

/-- A freshly generated two-step roadmap whose phases arrive out of
canonical order. -/
def witnessRoadmapData : RoadmapData :=
  { title := "Roadmap to Full-Stack Developer"
    description := "overview"
    steps :=
      [ { phase := .Advanced, title := "S1", description := "d1"
          skills := ["A"], duration := "1 week" },
        { phase := .Beginner, title := "S2", description := "d2"
          skills := ["B"], duration := "2 weeks" } ] }

/-- Witness for C5: materializing the two-step roadmap over the stale one
numbers the retrieved steps 0, 1 in generated order. -/
theorem materialize_roadmap_correct_witness :
    (getRoadmapSteps (materializeRoadmap roadmapStorage "u1" 1 witnessRoadmapData 5 50 9)
      5).map (·.orderIndex) = List.range witnessRoadmapData.steps.length :=
  (materialize_roadmap_correct roadmapStorage "u1" 1 witnessRoadmapData 5 50 9
    (by decide) (by decide)).2.2.1

/-- Witness for C3: a career path with an empty required-skills list gets
empty slices in the three subject-specific fallback steps. -/
theorem default_roadmap_shape_witness :
    (getDefaultRoadmap cpFirst).steps.map (·.skills) =
      [[], ["Version Control", "Development Environment"],
       ["Problem Solving", "Project Structure"],
       [], ["Project Management", "Documentation"],
       ["Team Collaboration", "Code Review"],
       [], ["Architecture", "Performance Optimization"],
       ["Interview Skills", "Networking"]] :=
  (default_roadmap_shape cpFirst).2.2.2 rfl

end Skillwise
